import Mathlib

/-
Shallow embedding of src/library_manager.py: a personal library catalog
manager storing one JSON record per line in a backing file.  Python strings
are lists of characters, the store is the ordered list of records the file
holds, and each operation of the LibraryManager class becomes a pure
function from store contents to store contents (plus a Bool recording
whether the file was rewritten, where the original reports it).
-/

open List

/-- Python strings modelled as lists of characters. -/
abbrev Str := List Char

/-- Model of Python str.lower, applied characterwise. -/
def lower (s : Str) : Str := s.map Char.toLower

/-- Model of Python str.isdigit: nonempty and every character a (ASCII) digit. -/
def isdigit (s : Str) : Bool := !s.isEmpty && s.all Char.isDigit

/-- Model of Python int(s) on a digit string: the decimal value of the digits. -/
def digitsToInt (s : Str) : Int :=
  (s.foldl (fun acc c => 10 * acc + (c.toNat - 48)) 0 : Nat)

/-- The status string "в наличии" (available) used in library_manager.py. -/
def avail : Str := ['в', ' ', 'н', 'а', 'л', 'и', 'ч', 'и', 'и']

/-- The status string "выдана" (loaned) used in library_manager.py. -/
def loaned : Str := ['в', 'ы', 'д', 'а', 'н', 'а']

/-- The Book dataclass of library_manager.py. -/
structure Book where
  id : Int
  title : Str
  author : Str
  year : Int
  status : Str
deriving DecidableEq

/-- The dict produced by Book.to_dict and consumed by Book.from_dict: a JSON
object with exactly the keys id, title, author, year, status. -/
structure BookDict where
  id : Int
  title : Str
  author : Str
  year : Int
  status : Str
deriving DecidableEq

/-- Model of Book.to_dict. -/
def Book.to_dict (b : Book) : BookDict :=
  ⟨b.id, b.title, b.author, b.year, b.status⟩

/-- Model of Book.from_dict. -/
def Book.from_dict (d : BookDict) : Book :=
  ⟨d.id, d.title, d.author, d.year, d.status⟩

/-- Model of Book.change_status: the status is set only when it is one of the
two allowed strings; otherwise the book is left unchanged (only a message is
printed). -/
def Book.change_status (b : Book) (status : Str) : Book :=
  if status ∈ [avail, loaned] then ⟨b.id, b.title, b.author, b.year, status⟩
  else b

/-- One line of the backing file: either json.loads succeeds and yields a
record dict with all five keys, or the line is malformed and parsing raises. -/
inductive Line where
  | record (d : BookDict)
  | malformed
deriving DecidableEq

/-- Model of json.loads followed by Book.from_dict on one line; a malformed
line raises an exception. -/
def parseLine : Line → Except Unit Book
  | .record d => .ok (Book.from_dict d)
  | .malformed => .error ()

/-- The loop of LibraryManager.loadBooks: parse each line in order, appending
the book; an exception on any line aborts the whole loop, so no partial list
escapes. -/
def parse_lines : List Line → Except Unit (List Book)
  | [] => .ok []
  | l :: rest =>
    match parseLine l with
    | .error e => .error e
    | .ok b =>
      match parse_lines rest with
      | .error e => .error e
      | .ok bs => .ok (b :: bs)

/-- Model of the loadBooks method of LibraryManager (Python name with a leading
underscore): the backing file is either absent, in which case FileNotFoundError
is swallowed and the store is empty, or a list of lines parsed in order. -/
def load_books : Option (List Line) → Except Unit (List Book)
  | none => .ok []
  | some lines => parse_lines lines

/-- Model of the saveBooks method of LibraryManager: one serialized record per
line, in store order. -/
def save_books (books : List Book) : List Line :=
  books.map (fun b => Line.record b.to_dict)

/-- The while loop of the generateId method of LibraryManager: starting from
new_id, keep incrementing while the id is already used. -/
def gen_from (used : List Int) (new_id : Int) : Int :=
  if h : new_id ∈ used then gen_from used (new_id + 1) else new_id
termination_by (used.filter (fun m => decide (new_id ≤ m))).length
decreasing_by
  have hsub : used.filter (fun m => decide (new_id + 1 ≤ m))
      <+ used.filter (fun m => decide (new_id ≤ m)) :=
    List.monotone_filter_right used (by intro a ha; simp at ha ⊢; omega)
  refine Nat.lt_of_le_of_ne hsub.length_le (fun heq => ?_)
  have heqL := hsub.eq_of_length heq
  have hn : new_id ∈ used.filter (fun m => decide (new_id ≤ m)) := by
    simp [List.mem_filter, h]
  rw [← heqL] at hn
  simp [List.mem_filter] at hn

/-- Model of the generateId method of LibraryManager: load the store, collect
its used ids, and return the first id from 1 upward that is not used. -/
def generate_id (books : List Book) : Int :=
  gen_from (books.map Book.id) 1

/-- Model of LibraryManager.add_book: a new Book with a freshly generated id
and status "в наличии" is appended to the backing file. -/
def add_book (books : List Book) (title author : Str) (year : Int) : List Book :=
  books ++ [⟨generate_id books, title, author, year, avail⟩]

/-- Model of LibraryManager.delete_book: the records whose id differs are kept;
the Bool records whether the file was rewritten (a record was removed). -/
def delete_book (books : List Book) (book_id : Int) : List Book × Bool :=
  let updated_books := books.filter (fun b => decide (b.id ≠ book_id))
  if books.length = updated_books.length then (books, false)
  else (updated_books, true)

/-- The search condition of LibraryManager.find_books, as in its list
comprehension: the lowercased keyword occurs in the lowercased title or the
lowercased author, or the keyword is all digits and its value equals the year. -/
def matches_book (keyword : Str) (b : Book) : Bool :=
  decide (lower keyword <:+: lower b.title)
  || decide (lower keyword <:+: lower b.author)
  || (isdigit keyword && decide (digitsToInt keyword = b.year))

/-- Model of LibraryManager.find_books: the sublist of records matching the
keyword. -/
def find_books (books : List Book) (keyword : Str) : List Book :=
  books.filter (matches_book keyword)

/-- The for loop of LibraryManager.change_status: find the first record with
the given id, call Book.change_status on it, and report whether one was found
(the loop breaks at the first match). -/
def update_status : List Book → Int → Str → List Book × Bool
  | [], _, _ => ([], false)
  | b :: rest, book_id, status =>
    if b.id = book_id then (b.change_status status :: rest, true)
    else
      let r := update_status rest book_id status
      (b :: r.1, r.2)

/-- Model of LibraryManager.change_status: when a record with the id exists the
(possibly unchanged) store is rewritten; otherwise nothing is written and the
store keeps its previous contents. -/
def change_status (books : List Book) (book_id : Int) (status : Str) :
    List Book × Bool :=
  let r := update_status books book_id status
  if r.2 then (r.1, true) else (books, false)

/-- Sample record with id 1 and year 1999, used to instantiate theorems. -/
def bkA : Book := ⟨1, ['a'], ['b'], 1999, avail⟩

/-- Sample record whose title is the text "1999" while its year is 2000. -/
def bkT : Book := ⟨2, ['1', '9', '9', '9'], ['d'], 2000, avail⟩

/-- Sample record with id 2 whose title is the text "1". -/
def bkO : Book := ⟨2, ['1'], ['d'], 0, avail⟩

/-- Filtering an id list by a strictly higher threshold strictly shortens the
result when the old threshold itself occurs in the list. -/
theorem length_filter_lt {used : List Int} {n : Int} (h : n ∈ used) :
    (used.filter (fun m => decide (n + 1 ≤ m))).length
      < (used.filter (fun m => decide (n ≤ m))).length := by
  have hsub : used.filter (fun m => decide (n + 1 ≤ m))
      <+ used.filter (fun m => decide (n ≤ m)) :=
    List.monotone_filter_right used (by intro a ha; simp at ha ⊢; omega)
  refine Nat.lt_of_le_of_ne hsub.length_le (fun heq => ?_)
  have heqL := hsub.eq_of_length heq
  have hn : n ∈ used.filter (fun m => decide (n ≤ m)) := by
    simp [List.mem_filter, h]
  rw [← heqL] at hn
  simp [List.mem_filter] at hn

/-- The id returned by the while loop is never one of the used ids. -/
theorem gen_from_not_mem (used : List Int) (n : Int) : gen_from used n ∉ used := by
  rw [gen_from.eq_def]
  by_cases hn : n ∈ used
  · rw [dif_pos hn]
    exact gen_from_not_mem used (n + 1)
  · rw [dif_neg hn]
    exact hn
termination_by (used.filter (fun m => decide (n ≤ m))).length
decreasing_by exact length_filter_lt hn

/-- The while loop only moves upward from its starting candidate. -/
theorem le_gen_from (used : List Int) (n : Int) : n ≤ gen_from used n := by
  rw [gen_from.eq_def]
  by_cases hn : n ∈ used
  · rw [dif_pos hn]
    have := le_gen_from used (n + 1)
    omega
  · rw [dif_neg hn]
termination_by (used.filter (fun m => decide (n ≤ m))).length
decreasing_by exact length_filter_lt hn

/-- The while loop returns the least unused id at or above its start: any
unused id at or above the start bounds the result. -/
theorem gen_from_min (used : List Int) (n m : Int) (hnm : n ≤ m)
    (hm : m ∉ used) : gen_from used n ≤ m := by
  rw [gen_from.eq_def]
  by_cases hn : n ∈ used
  · rw [dif_pos hn]
    have hne : n ≠ m := fun e => hm (e ▸ hn)
    exact gen_from_min used (n + 1) m (by omega) hm
  · rw [dif_neg hn]
    exact hnm
termination_by (used.filter (fun m => decide (n ≤ m))).length
decreasing_by exact length_filter_lt hn

/-- The while loop takes at most as many steps as there are used ids at or
above its start, so the result is bounded by start plus that count. -/
theorem gen_from_bound (used : List Int) (n : Int) :
    gen_from used n ≤ n + ((used.filter (fun m => decide (n ≤ m))).length : Int) := by
  rw [gen_from.eq_def]
  by_cases hn : n ∈ used
  · rw [dif_pos hn]
    have h1 := gen_from_bound used (n + 1)
    have h2 := length_filter_lt hn
    omega
  · rw [dif_neg hn]
    omega
termination_by (used.filter (fun m => decide (n ≤ m))).length
decreasing_by exact length_filter_lt hn

/-- The generated id is positive. -/
theorem generate_id_pos (books : List Book) : 0 < generate_id books :=
  lt_of_lt_of_le one_pos (le_gen_from (books.map Book.id) 1)

/-- The generated id is not already used by any record. -/
theorem generate_id_not_mem (books : List Book) :
    generate_id books ∉ books.map Book.id :=
  gen_from_not_mem (books.map Book.id) 1

/-- The generated id is below every other unused positive id. -/
theorem generate_id_min (books : List Book) (m : Int) (hm : 0 < m)
    (hmem : m ∉ books.map Book.id) : generate_id books ≤ m :=
  gen_from_min (books.map Book.id) 1 m (by omega) hmem

/-- The generated id is at most the number of records plus one. -/
theorem generate_id_le (books : List Book) :
    generate_id books ≤ (books.length : Int) + 1 := by
  have h1 := gen_from_bound (books.map Book.id) 1
  have h2 : ((books.map Book.id).filter (fun m => decide (1 ≤ m))).length
      ≤ (books.map Book.id).length := (List.filter_sublist _).length_le
  have h3 : (books.map Book.id).length = books.length := List.length_map _ _
  have h0 : generate_id books = gen_from (books.map Book.id) 1 := rfl
  omega

/-- The store left by delete_book is exactly the filtered store, whether or
not anything was removed. -/
theorem delete_book_fst (books : List Book) (book_id : Int) :
    (delete_book books book_id).1
      = books.filter (fun b => decide (b.id ≠ book_id)) := by
  show (if books.length
          = (books.filter (fun b => decide (b.id ≠ book_id))).length
        then (books, false)
        else (books.filter (fun b => decide (b.id ≠ book_id)), true)).1 = _
  split
  · rename_i h
    exact ((List.filter_sublist books).eq_of_length h.symm).symm
  · rfl

/-- The length test of delete_book succeeds exactly when no record has the id. -/
theorem length_filter_eq_iff (books : List Book) (book_id : Int) :
    books.length = (books.filter (fun b => decide (b.id ≠ book_id))).length
      ↔ ∀ b ∈ books, b.id ≠ book_id := by
  constructor
  · intro h b hb
    have heq := (List.filter_sublist books).eq_of_length h.symm
    have hb2 : b ∈ books.filter (fun b => decide (b.id ≠ book_id)) :=
      heq.symm ▸ hb
    simpa using List.of_mem_filter hb2
  · intro h
    rw [List.filter_eq_self.mpr (by intro b hb; simpa using h b hb)]

/-- The delete_book write flag is set exactly when some record has the id. -/
theorem delete_book_snd (books : List Book) (book_id : Int) :
    (delete_book books book_id).2 = true ↔ ∃ b ∈ books, b.id = book_id := by
  show (if books.length
          = (books.filter (fun b => decide (b.id ≠ book_id))).length
        then (books, false)
        else (books.filter (fun b => decide (b.id ≠ book_id)), true)).2
      = true ↔ _
  split
  · rename_i h
    rw [length_filter_eq_iff] at h
    simp only [Bool.false_eq_true, false_iff]
    rintro ⟨b, hb, hid⟩
    exact h b hb hid
  · rename_i h
    rw [length_filter_eq_iff] at h
    push_neg at h
    obtain ⟨b, hb, hid⟩ := h
    exact ⟨fun _ => ⟨b, hb, hid⟩, fun _ => rfl⟩

/-- Book.change_status never alters the id field. -/
theorem Book.change_status_id (b : Book) (st : Str) :
    (b.change_status st).id = b.id := by
  unfold Book.change_status
  split <;> rfl

/-- Book.change_status with a status outside the two allowed strings is the
identity on the book. -/
theorem Book.change_status_invalid (b : Book) (st : Str)
    (h : st ∉ [avail, loaned]) : b.change_status st = b := by
  unfold Book.change_status
  rw [if_neg h]

/-- Book.change_status with an allowed status sets exactly the status field. -/
theorem Book.change_status_valid (b : Book) (st : Str)
    (h : st ∈ [avail, loaned]) :
    b.change_status st = ⟨b.id, b.title, b.author, b.year, st⟩ := by
  unfold Book.change_status
  rw [if_pos h]

/-- The status-update loop reports failure and keeps the store when no record
has the id. -/
theorem update_status_not_found (books : List Book) (i : Int) (st : Str)
    (h : ∀ b ∈ books, b.id ≠ i) : update_status books i st = (books, false) := by
  induction books with
  | nil => rfl
  | cons b rest ih =>
    have hb : b.id ≠ i := h b (List.mem_cons_self b rest)
    simp only [update_status, if_neg hb]
    rw [ih (fun x hx => h x (List.mem_cons_of_mem b hx))]

/-- The status-update loop preserves the sequence of ids. -/
theorem update_status_ids (books : List Book) (i : Int) (st : Str) :
    (update_status books i st).1.map Book.id = books.map Book.id := by
  induction books with
  | nil => rfl
  | cons b rest ih =>
    by_cases hb : b.id = i
    · simp [update_status, if_pos hb, Book.change_status_id]
    · simp only [update_status, if_neg hb, List.map_cons]
      rw [ih]

/-- The status-update loop with an invalid status leaves the store unchanged. -/
theorem update_status_invalid (books : List Book) (i : Int) (st : Str)
    (h : st ∉ [avail, loaned]) : (update_status books i st).1 = books := by
  induction books with
  | nil => rfl
  | cons b rest ih =>
    by_cases hb : b.id = i
    · simp [update_status, if_pos hb, Book.change_status_invalid b st h]
    · simp only [update_status, if_neg hb]
      simp [ih]

/-- The status-update loop rewrites exactly the first record carrying the id
and stops there. -/
theorem update_status_found (l1 : List Book) (b : Book) (l2 : List Book)
    (i : Int) (st : Str) (h1 : ∀ x ∈ l1, x.id ≠ i) (hb : b.id = i) :
    update_status (l1 ++ b :: l2) i st
      = (l1 ++ b.change_status st :: l2, true) := by
  induction l1 with
  | nil =>
    simp only [List.nil_append, update_status, if_pos hb]
  | cons x rest ih =>
    have hx : x.id ≠ i := h1 x (List.mem_cons_self x rest)
    simp only [List.cons_append, update_status, if_neg hx]
    simp [ih (fun y hy => h1 y (List.mem_cons_of_mem x hy))]

/-- Spec-level description of change_status when the id is absent: reported as
not found and nothing written. -/
theorem change_status_not_found (books : List Book) (i : Int) (st : Str)
    (h : ∀ b ∈ books, b.id ≠ i) : change_status books i st = (books, false) := by
  show (if (update_status books i st).2 = true
        then ((update_status books i st).1, true) else (books, false)) = _
  rw [update_status_not_found books i st h]
  simp

/-- Spec-level description of change_status with an invalid status: the store
contents are unchanged. -/
theorem change_status_invalid_fst (books : List Book) (i : Int) (st : Str)
    (h : st ∉ [avail, loaned]) : (change_status books i st).1 = books := by
  show (if (update_status books i st).2 = true
        then ((update_status books i st).1, true) else (books, false)).1 = books
  split
  · exact update_status_invalid books i st h
  · rfl

/-- Spec-level description of change_status at the first matching record with a
valid status: that record's status is set and the file is rewritten. -/
theorem change_status_found (l1 : List Book) (b : Book) (l2 : List Book)
    (i : Int) (st : Str) (h1 : ∀ x ∈ l1, x.id ≠ i) (hb : b.id = i)
    (hst : st ∈ [avail, loaned]) :
    change_status (l1 ++ b :: l2) i st
      = (l1 ++ (⟨b.id, b.title, b.author, b.year, st⟩ : Book) :: l2, true) := by
  show (if (update_status (l1 ++ b :: l2) i st).2 = true
        then ((update_status (l1 ++ b :: l2) i st).1, true)
        else (l1 ++ b :: l2, false)) = _
  rw [update_status_found l1 b l2 i st h1 hb, Book.change_status_valid b st hst]
  rfl

/-- Membership in the find_books result, with the Boolean condition. -/
theorem mem_find_books (books : List Book) (kw : Str) (b : Book) :
    b ∈ find_books books kw ↔ b ∈ books ∧ matches_book kw b = true := by
  simp [find_books, List.mem_filter]

/-- The Boolean search condition unfolded to its propositional content. -/
theorem matches_book_iff (kw : Str) (b : Book) :
    matches_book kw b = true
      ↔ (lower kw <:+: lower b.title ∨ lower kw <:+: lower b.author
          ∨ (isdigit kw = true ∧ digitsToInt kw = b.year)) := by
  simp only [matches_book, Bool.or_eq_true, Bool.and_eq_true, decide_eq_true_eq]
  tauto

/-- Serializing a store and reparsing it returns exactly the store. -/
theorem parse_lines_save (books : List Book) :
    parse_lines (save_books books) = .ok books := by
  induction books with
  | nil => rfl
  | cons b rest ih =>
    simp [save_books, parse_lines, parseLine] at ih ⊢
    rw [ih]
    rfl

/-- A malformed line anywhere makes the whole parse fail. -/
theorem parse_lines_malformed (lines : List Line) (h : Line.malformed ∈ lines) :
    parse_lines lines = .error () := by
  induction lines with
  | nil => cases h
  | cons l rest ih =>
    cases l with
    | malformed => rfl
    | record d =>
      rw [List.mem_cons] at h
      rcases h with h | h
      · cases h
      · simp [parse_lines, parseLine, ih h]

/-- C1: the id assigned to a newly added record is the smallest positive
integer not present among the ids of the records already in the store, and
add_book appends exactly the record carrying that id. -/
theorem add_book_assigns_smallest_unused_id (books : List Book)
    (title author : Str) (year : Int) :
    add_book books title author year
        = books ++ [⟨generate_id books, title, author, year, avail⟩]
    ∧ 0 < generate_id books
    ∧ generate_id books ∉ books.map Book.id
    ∧ ∀ m : Int, 0 < m → m ∉ books.map Book.id → generate_id books ≤ m :=
  ⟨rfl, generate_id_pos books, generate_id_not_mem books,
    fun m hm hmem => generate_id_min books m hm hmem⟩

/-- Witness for C1 at the one-record store holding bkA: since 2 is positive
and unused there, the generated id is at most 2. -/
theorem add_book_assigns_smallest_unused_id_witness :
    generate_id [bkA] ≤ 2 :=
  (add_book_assigns_smallest_unused_id [bkA] [] [] 0).2.2.2
    2 (by decide) (by decide)

/-- C2: find_books returns exactly the records whose lowercased title or
author contains the lowercased keyword, or, for an all-digit keyword, whose
year equals its numeric value; the result is a sublist of the store, so it is
a subset with the store's order preserved. -/
theorem find_books_characterization (books : List Book) (kw : Str) (b : Book) :
    (b ∈ find_books books kw
      ↔ b ∈ books
        ∧ (lower kw <:+: lower b.title ∨ lower kw <:+: lower b.author
            ∨ (isdigit kw = true ∧ digitsToInt kw = b.year)))
    ∧ find_books books kw <+ books := by
  constructor
  · exact (mem_find_books books kw b).trans
      (and_congr_right fun _ => matches_book_iff kw b)
  · unfold find_books
    exact List.filter_sublist books

/-- Witness for C2 at a one-record store and the keyword "a". -/
theorem find_books_characterization_witness :
    (bkA ∈ find_books [bkA] ['a']
      ↔ bkA ∈ [bkA]
        ∧ (lower ['a'] <:+: lower bkA.title ∨ lower ['a'] <:+: lower bkA.author
            ∨ (isdigit ['a'] = true ∧ digitsToInt ['a'] = bkA.year)))
    ∧ find_books [bkA] ['a'] <+ [bkA] :=
  find_books_characterization [bkA] ['a'] bkA

/-- C3: change_status rejects a status outside the two allowed values without
changing any record, reports an unknown id without writing, and otherwise
rewrites the store with the first matching record's status set to the new
value. -/
theorem change_status_spec (books : List Book) (book_id : Int) (st : Str) :
    (st ∉ [avail, loaned] → (change_status books book_id st).1 = books)
    ∧ ((∀ b ∈ books, b.id ≠ book_id) →
        change_status books book_id st = (books, false))
    ∧ (∀ l1 b l2, books = l1 ++ b :: l2 → (∀ x ∈ l1, x.id ≠ book_id) →
        b.id = book_id → st ∈ [avail, loaned] →
        change_status books book_id st
          = (l1 ++ (⟨b.id, b.title, b.author, b.year, st⟩ : Book) :: l2,
              true)) := by
  refine ⟨fun h => change_status_invalid_fst books book_id st h,
    fun h => change_status_not_found books book_id st h,
    fun l1 b l2 he h1 hb hst => ?_⟩
  subst he
  exact change_status_found l1 b l2 book_id st h1 hb hst

/-- Witness for C3: loaning out the single record with id 1 rewrites the
store with its status set to "выдана". -/
theorem change_status_spec_witness :
    change_status [bkA] 1 loaned
      = ([(⟨1, ['a'], ['b'], 1999, loaned⟩ : Book)], true) :=
  (change_status_spec [bkA] 1 loaned).2.2 [] bkA [] (by decide) (by decide)
    (by decide) (by decide)

/-- C4: saving the sequence returned by a successful load and loading again
yields the same sequence of records, field for field and in order. -/
theorem save_load_roundtrip (file : Option (List Line)) (books : List Book)
    (_h : load_books file = .ok books) :
    load_books (some (save_books books)) = .ok books := by
  simpa [load_books] using parse_lines_save books

/-- Witness for C4 on the one-line file holding bkA. -/
theorem save_load_roundtrip_witness :
    load_books (some (save_books [bkA])) = .ok [bkA] :=
  save_load_roundtrip (some [Line.record bkA.to_dict]) [bkA] rfl

/-- C5: delete_book keeps exactly the records whose id differs, in their
original order, and flags a rewrite exactly when some record matched. -/
theorem delete_book_spec (books : List Book) (book_id : Int) :
    (delete_book books book_id).1
        = books.filter (fun b => decide (b.id ≠ book_id))
    ∧ ((delete_book books book_id).2 = true ↔ ∃ b ∈ books, b.id = book_id) :=
  ⟨delete_book_fst books book_id, delete_book_snd books book_id⟩

/-- Witness for C5 at a one-record store and the id it holds. -/
theorem delete_book_spec_witness :
    (delete_book [bkA] 1).1 = [bkA].filter (fun b => decide (b.id ≠ 1))
    ∧ ((delete_book [bkA] 1).2 = true ↔ ∃ b ∈ [bkA], b.id = 1) :=
  delete_book_spec [bkA] 1

/-- C6: starting from a store with pairwise distinct ids, add_book,
delete_book and change_status each leave the ids pairwise distinct; in
particular add_book never introduces a duplicate id. -/
theorem ops_preserve_nodup_ids (books : List Book)
    (h : (books.map Book.id).Nodup) (title author : Str) (year bid : Int)
    (st : Str) :
    ((add_book books title author year).map Book.id).Nodup
    ∧ (((delete_book books bid).1).map Book.id).Nodup
    ∧ (((change_status books bid st).1).map Book.id).Nodup := by
  refine ⟨?_, ?_, ?_⟩
  · have hg := generate_id_not_mem books
    unfold add_book
    rw [List.map_append]
    simp only [List.map_cons, List.map_nil]
    rw [List.nodup_append]
    refine ⟨h, List.nodup_singleton _, ?_⟩
    intro a ha hmem
    rw [List.mem_singleton] at hmem
    exact hg (hmem ▸ ha)
  · rw [delete_book_fst]
    exact List.Nodup.sublist ((List.filter_sublist books).map Book.id) h
  · have hids : (change_status books bid st).1.map Book.id
        = books.map Book.id := by
      show (if (update_status books bid st).2 = true
            then ((update_status books bid st).1, true)
            else (books, false)).1.map Book.id = _
      split
      · exact update_status_ids books bid st
      · rfl
    rw [hids]
    exact h

/-- Witness for C6 on the one-record store holding bkA. -/
theorem ops_preserve_nodup_ids_witness :
    ((add_book [bkA] ['x'] ['y'] 0).map Book.id).Nodup
    ∧ (((delete_book [bkA] 1).1).map Book.id).Nodup
    ∧ (((change_status [bkA] 1 loaned).1).map Book.id).Nodup :=
  ops_preserve_nodup_ids [bkA] (by decide) ['x'] ['y'] 0 1 loaned

/-- C7: a missing backing file loads as the empty store, not an error, while
a malformed line fails the whole load with an error, so no partial sequence
is ever returned. -/
theorem load_books_error_handling (lines : List Line) :
    load_books none = .ok []
    ∧ (Line.malformed ∈ lines → load_books (some lines) = .error ()) :=
  ⟨rfl, fun h => by simpa [load_books] using parse_lines_malformed lines h⟩

/-- Witness for C7 on the absent file and a one-line malformed file. -/
theorem load_books_error_handling_witness :
    load_books none = .ok []
    ∧ load_books (some [Line.malformed]) = .error () :=
  ⟨(load_books_error_handling []).1,
    (load_books_error_handling [Line.malformed]).2 (by decide)⟩

/-- C8 fails on the code: find_books with keyword "1999" also returns a
record whose title contains "1999" although its year is 2000, because the
keyword is matched as a substring of the title before the year is tried. -/
theorem find_year_keyword_counterexample :
    find_books [bkT] ['1', '9', '9', '9'] = [bkT] ∧ bkT.year ≠ 1999 := by
  decide

/-- C8 amended: every record returned by find_books with keyword "1999" has
year 1999 or carries "1999" as a substring of its lowercased title or
author. -/
theorem find_year_keyword_amended (books : List Book) (b : Book)
    (h : b ∈ find_books books ['1', '9', '9', '9']) :
    b.year = 1999 ∨ ['1', '9', '9', '9'] <:+: lower b.title
      ∨ ['1', '9', '9', '9'] <:+: lower b.author := by
  have hm := ((mem_find_books books _ b).mp h).2
  rw [matches_book_iff] at hm
  have hlow : lower ['1', '9', '9', '9'] = ['1', '9', '9', '9'] := by decide
  rw [hlow] at hm
  rcases hm with h1 | h2 | ⟨_, hy⟩
  · exact Or.inr (Or.inl h1)
  · exact Or.inr (Or.inr h2)
  · have hd : digitsToInt ['1', '9', '9', '9'] = 1999 := by decide
    exact Or.inl (by rw [← hy, hd])

/-- Witness for the amended C8 at a store whose single record has year
1999. -/
theorem find_year_keyword_amended_witness :
    bkA.year = 1999 ∨ ['1', '9', '9', '9'] <:+: lower bkA.title
      ∨ ['1', '9', '9', '9'] <:+: lower bkA.author :=
  find_year_keyword_amended [bkA] bkA (by decide)

/-- C9 fails on the code: after delete_book(1) on a store whose only record
has id 2 and title "1", find_books with keyword "1" still returns that
record, because find_books matches titles and never ids. -/
theorem delete_then_find_counterexample :
    find_books (delete_book [bkO] 1).1 ['1'] = [bkO]
    ∧ find_books (delete_book [bkO] 1).1 ['1'] ≠ [] := by
  decide

/-- C9 amended: after delete_book(id), every record any subsequent find_books
returns has an id different from the deleted id; the result need not be
empty, since the search matches title, author and year, never the id. -/
theorem delete_then_find_amended (books : List Book) (book_id : Int)
    (kw : Str) (b : Book)
    (h : b ∈ find_books (delete_book books book_id).1 kw) : b.id ≠ book_id := by
  have hb := ((mem_find_books _ kw b).mp h).1
  rw [delete_book_fst] at hb
  simpa using List.of_mem_filter hb

/-- Witness for the amended C9: the record found after the deletion does not
carry the deleted id. -/
theorem delete_then_find_amended_witness : bkO.id ≠ 1 :=
  delete_then_find_amended [bkO] 1 ['1'] bkO (by decide)

/-- C10: generate_id terminates with a positive id at most the number of
records plus one, matching the bound of n+1 loop iterations. -/
theorem generate_id_terminates_bounded (books : List Book) :
    0 < generate_id books ∧ generate_id books ≤ (books.length : Int) + 1 :=
  ⟨generate_id_pos books, generate_id_le books⟩

/-- Witness for C10 on the one-record store holding bkA. -/
theorem generate_id_terminates_bounded_witness :
    0 < generate_id [bkA]
    ∧ generate_id [bkA] ≤ (([bkA] : List Book).length : Int) + 1 :=
  generate_id_terminates_bounded [bkA]
